import Mathlib

/-!
Shallow embedding of the Homer SIP-call reconstruction engine of
`app/routes/homer.py` (functions `_group_calls`, `_ms_to_hhmmss`,
`_build_call_detail`, `_extract_header`, `_build_session`,
`_find_response_ts`, `_call_summary_from_transaction`), together with
theorems checking the natural-language specification against it.

Modelling conventions:
* Python dict records become a structure of `Option` fields (`none` models
  both an absent key and a JSON `null` value).
* Python integers are `Int`; timestamps are kept as `Int`.
* Python truthiness of strings/ints/lists is explicit (`pyOrS`, `pyOrI`,
  an `= 0` / `= ""` test).
* Python `list.sort(key=...)` is a stable sort; it is modelled by the
  structurally recursive insertion sort `insSort` below, which is proved
  stable, permuting and sorting.
* String scanning helpers (`.startswith`, `.lower`, `.strip`,
  `.splitlines`, slices) are re-implemented over the character list of
  the string so that every definition evaluates inside the kernel.
* Code that can raise (the hosts-map extraction in `_build_call_detail`)
  returns `Except String`.
-/

deriving instance DecidableEq for Except

/-- Python `a or b` for an optional string `a` (`None` and `""` are falsy). -/
def pyOrS (a : Option String) (b : String) : String :=
  match a with
  | none => b
  | some s => if s = "" then b else s

/-- Python `a or b` for an optional integer `a` (`None` and `0` are falsy). -/
def pyOrI (a : Option Int) (b : Int) : Int :=
  match a with
  | none => b
  | some n => if n = 0 then b else n

/-- Python truthiness of an optional integer. -/
def truthyI (a : Option Int) : Bool :=
  match a with
  | none => false
  | some n => n != 0

/-- Python `max(l)` for a nonempty list (0 on the empty list, which the code guards against). -/
def pyMax : List Int → Int
  | [] => 0
  | h :: t => t.foldl max h

/-- Python `min(l)` for a nonempty list (0 on the empty list, which the code guards against). -/
def pyMin : List Int → Int
  | [] => 0
  | h :: t => t.foldl min h

theorem le_foldl_max (l : List Int) (a : Int) : a ≤ l.foldl max a := by
  induction l generalizing a with
  | nil => exact le_refl a
  | cons b t ih =>
      calc a ≤ max a b := le_max_left a b
        _ ≤ t.foldl max (max a b) := ih (max a b)

theorem foldl_min_le (l : List Int) (a : Int) : l.foldl min a ≤ a := by
  induction l generalizing a with
  | nil => exact le_refl a
  | cons b t ih =>
      calc t.foldl min (min a b) ≤ min a b := ih (min a b)
        _ ≤ a := min_le_left a b

theorem pyMin_le_pyMax (l : List Int) : pyMin l ≤ pyMax l := by
  cases l with
  | nil => exact le_refl 0
  | cons h t =>
      calc t.foldl min h ≤ h := foldl_min_le t h
        _ ≤ t.foldl max h := le_foldl_max t h

/-- Zero-padding to two digits, Python `f"{n:02d}"` for `0 ≤ n`. -/
def pad2 (n : Nat) : String :=
  if n < 10 then "0" ++ toString n else toString n

/-- Embedding of `_ms_to_hhmmss`. -/
def msToHhmmss (ms : Int) : String :=
  if ms ≤ 0 then "0s"
  else
    let seconds := ms.toNat / 1000
    let h := seconds / 3600
    let rem := seconds % 3600
    let m := rem / 60
    let s := rem % 60
    if h ≠ 0 then toString h ++ "h " ++ pad2 m ++ "m " ++ pad2 s ++ "s"
    else if m ≠ 0 then toString m ++ "m " ++ pad2 s ++ "s"
    else toString s ++ "s"

/-! ### Character-list reimplementations of the used Python string methods -/

/-- Python `s.startswith(pre)`, over characters. -/
def pyStartsWith (s pre : String) : Bool :=
  List.isPrefixOf pre.data s.data

/-- Python `s.lower()` (ASCII case folding, as used on SIP header text). -/
def pyLower (s : String) : String :=
  ⟨s.data.map Char.toLower⟩

/-- Python slice `s[:n]`. -/
def pySlice (s : String) (n : Nat) : String :=
  ⟨s.data.take n⟩

/-- Python slice `s[n:]`. -/
def pyDropChars (s : String) (n : Nat) : String :=
  ⟨s.data.drop n⟩

/-- Whitespace stripping, Python `s.strip()`. -/
def pyStrip (s : String) : String :=
  ⟨((s.data.dropWhile Char.isWhitespace).reverse.dropWhile Char.isWhitespace).reverse⟩

/-- Split a character list at a separator character. -/
def splitChar (c : Char) : List Char → List (List Char)
  | [] => [[]]
  | x :: xs =>
      let rest := splitChar c xs
      if x = c then
        [] :: rest
      else
        match rest with
        | [] => [[x]]
        | r :: rs => (x :: r) :: rs

/-- Python `s.splitlines()` restricted to `\n` separators (the SIP payloads at hand). -/
def pySplitLines (s : String) : List String :=
  (splitChar (Char.ofNat 10) s.data).map (fun l => ⟨l⟩)

/-- Python `s.split(c)`. -/
def pySplit (s : String) (c : Char) : List String :=
  (splitChar c s.data).map (fun l => ⟨l⟩)

/-- Substring test used for the `content-type: application/sdp` check. -/
def pyContainsSub (s pat : String) : Bool :=
  go pat.data s.data
where
  go (pat : List Char) : List Char → Bool
    | [] => pat.isEmpty
    | x :: xs => List.isPrefixOf pat (x :: xs) || go pat xs

/-! ### The capture record model

One raw Homer record / transaction message (a Python dict); `none` models
an absent key. -/

structure Rec where
  callid : Option String := none
  call_id : Option String := none
  method : Option String := none
  response_code : Option Int := none
  raw : Option String := none
  create_date : Option Int := none
  micro_ts : Option Int := none
  id : Option Int := none
  payloadType : Option Int := none
  from_user : Option String := none
  to_user : Option String := none
  caller : Option String := none
  callee : Option String := none
  srcIp : Option String := none
  dstIp : Option String := none
  source_ip : Option String := none
  destination_ip : Option String := none
  srcPort : Option Int := none
  dstPort : Option Int := none
  cseq : Option String := none
  ruri_user : Option String := none
  ruri_domain : Option String := none
deriving DecidableEq, Repr, Inhabited

/-! ### Stable insertion sort (model of Python `list.sort(key=...)`) -/

/-- Insert `a` before the first element `b` with `le a b`. -/
def ordInsert (le : α → α → Bool) (a : α) : List α → List α
  | [] => [a]
  | b :: l => if le a b then a :: b :: l else b :: ordInsert le a l

/-- Stable insertion sort: sorts like Python `sorted(key=...)` for a total
preorder `le`, keeping the original relative order of tied elements. -/
def insSort (le : α → α → Bool) : List α → List α
  | [] => []
  | a :: l => ordInsert le a (insSort le l)

theorem ordInsert_perm (le : α → α → Bool) (a : α) (l : List α) :
    (ordInsert le a l).Perm (a :: l) := by
  induction l with
  | nil => exact List.Perm.refl [a]
  | cons b t ih =>
      simp only [ordInsert]
      by_cases h : le a b = true
      · rw [if_pos h]
      · rw [if_neg h]
        exact (List.Perm.cons b ih).trans (List.Perm.swap a b t)

theorem insSort_perm (le : α → α → Bool) (l : List α) :
    (insSort le l).Perm l := by
  induction l with
  | nil => exact List.Perm.refl []
  | cons a t ih =>
      exact (ordInsert_perm le a (insSort le t)).trans (List.Perm.cons a ih)

theorem mem_insSort (le : α → α → Bool) (l : List α) (x : α) :
    x ∈ insSort le l ↔ x ∈ l :=
  (insSort_perm le l).mem_iff

theorem mem_ordInsert (le : α → α → Bool) (a : α) (l : List α) (x : α) :
    x ∈ ordInsert le a l ↔ x = a ∨ x ∈ l := by
  rw [(ordInsert_perm le a l).mem_iff]
  simp

/-- Inserting an element never removes a sublist. -/
theorem sublist_ordInsert (le : α → α → Bool) (a : α) {c l : List α}
    (h : c.Sublist l) : c.Sublist (ordInsert le a l) := by
  induction l generalizing c with
  | nil =>
      cases h
      exact List.nil_sublist [a]
  | cons b t ih =>
      simp only [ordInsert]
      by_cases hle : le a b = true
      · rw [if_pos hle]
        exact h.trans (List.sublist_cons_self a (b :: t))
      · rw [if_neg hle]
        cases h with
        | cons _ h2 => exact List.Sublist.cons b (ih h2)
        | cons₂ _ h2 => exact List.Sublist.cons₂ b (ih h2)

/-- Stability of the insertion point: inserting `a` keeps it before any
element it compares `le` to. -/
theorem ordInsert_pair (le : α → α → Bool) (a b : α) (l : List α)
    (hb : b ∈ l) (hab : le a b = true) :
    [a, b].Sublist (ordInsert le a l) := by
  induction l with
  | nil => cases hb
  | cons y t ih =>
      by_cases hy : le a y = true
      · simp only [ordInsert, if_pos hy]
        exact List.Sublist.cons₂ a (List.singleton_sublist.mpr hb)
      · simp only [ordInsert, if_neg hy]
        rcases List.mem_cons.mp hb with rfl | hbt
        · exact absurd hab hy
        · exact List.Sublist.cons y (ih hbt)

/-- Stability of `insSort`: any two-element sublist whose elements compare
`le` (in particular: tie on the sort key) survives sorting in order. -/
theorem insSort_stable (le : α → α → Bool) {a b : α} {l : List α}
    (h : [a, b].Sublist l) (hab : le a b = true) :
    [a, b].Sublist (insSort le l) := by
  induction l with
  | nil => cases h
  | cons x t ih =>
      cases h with
      | cons _ h2 =>
          exact sublist_ordInsert le x (ih h2)
      | cons₂ _ h2 =>
          exact ordInsert_pair le a b (insSort le t)
            ((mem_insSort le t b).mpr (List.singleton_sublist.mp h2)) hab

/-- Sortedness of `ordInsert` for a total, transitive comparison. -/
theorem pairwise_ordInsert (le : α → α → Bool)
    (htot : ∀ x y, le x y = true ∨ le y x = true)
    (htrans : ∀ x y z, le x y = true → le y z = true → le x z = true)
    (a : α) (l : List α) (hl : l.Pairwise (fun x y => le x y = true)) :
    (ordInsert le a l).Pairwise (fun x y => le x y = true) := by
  induction l with
  | nil => simp [ordInsert]
  | cons b t ih =>
      rcases List.pairwise_cons.mp hl with ⟨hbt, ht⟩
      by_cases hab : le a b = true
      · simp only [ordInsert, if_pos hab]
        refine List.pairwise_cons.mpr ⟨?_, hl⟩
        intro y hy
        rcases List.mem_cons.mp hy with rfl | hyt
        · exact hab
        · exact htrans a b y hab (hbt y hyt)
      · simp only [ordInsert, if_neg hab]
        refine List.pairwise_cons.mpr ⟨?_, ih ht⟩
        intro y hy
        rcases (mem_ordInsert le a t y).mp hy with h | hyt
        · rw [h]
          rcases htot a b with h2 | h2
          · exact absurd h2 hab
          · exact h2
        · exact hbt y hyt

/-- `insSort` sorts, for a total, transitive comparison. -/
theorem pairwise_insSort (le : α → α → Bool)
    (htot : ∀ x y, le x y = true ∨ le y x = true)
    (htrans : ∀ x y z, le x y = true → le y z = true → le x z = true)
    (l : List α) :
    (insSort le l).Pairwise (fun x y => le x y = true) := by
  induction l with
  | nil => simp [insSort]
  | cons a t ih => exact pairwise_ordInsert le htot htrans a (insSort le t) ih

/-- Ascending comparison by an integer key. -/
def keyLe (k : α → Int) (a b : α) : Bool := decide (k a ≤ k b)

/-- Descending comparison by an integer key (Python `sort(reverse=True)`). -/
def keyGe (k : α → Int) (a b : α) : Bool := decide (k b ≤ k a)

theorem keyLe_total (k : α → Int) : ∀ x y, keyLe k x y = true ∨ keyLe k y x = true := by
  intro x y
  simp only [keyLe, decide_eq_true_eq]
  exact le_total (k x) (k y)

theorem keyLe_trans (k : α → Int) :
    ∀ x y z, keyLe k x y = true → keyLe k y z = true → keyLe k x z = true := by
  intro x y z hxy hyz
  simp only [keyLe, decide_eq_true_eq] at *
  exact le_trans hxy hyz

theorem keyGe_total (k : α → Int) : ∀ x y, keyGe k x y = true ∨ keyGe k y x = true := by
  intro x y
  simp only [keyGe, decide_eq_true_eq]
  exact le_total (k y) (k x)

theorem keyGe_trans (k : α → Int) :
    ∀ x y z, keyGe k x y = true → keyGe k y z = true → keyGe k x z = true := by
  intro x y z hxy hyz
  simp only [keyGe, decide_eq_true_eq] at *
  exact le_trans hyz hxy

/-- Lexicographic string comparison over characters (Python string `<=`). -/
def strLeB (a b : String) : Bool :=
  go a.data b.data
where
  go : List Char → List Char → Bool
    | [], _ => true
    | _ :: _, [] => false
    | x :: xs, y :: ys => if x = y then go xs ys else decide (x < y)

/-! ### `_group_calls` — the batch grouper -/

/-- Python `str(x)` on the response-code field (`str("") = ""` when absent). -/
def respStr (r : Rec) : String :=
  match r.response_code with
  | none => ""
  | some n => toString n

/-- Grouping key of a record: `rec.get("callid") or rec.get("call_id") or ""`. -/
def recCid (r : Rec) : String :=
  pyOrS r.callid (pyOrS r.call_id "")

/-- The set `{r.get("method", "") for r in recs}` of a partition. -/
def methodsSet (recs : List Rec) : Finset String :=
  (recs.map (fun r => r.method.getD "")).toFinset

/-- Batch-path 200 detection: `"200" in response_codes or any(method.startswith("200"))`.
The raw SIP text is NOT consulted on this path. -/
def has200batch (recs : List Rec) : Bool :=
  recs.any (fun r => respStr r == "200")
    || recs.any (fun r => pyStartsWith (r.method.getD "") "200")

/-- The status ladder of `_group_calls` (lines 54–63 of `homer.py`). -/
def groupStatus (recs : List Rec) : String :=
  let allMethods := methodsSet recs
  let has200 := has200batch recs
  let hasCancel := "CANCEL" ∈ allMethods
  let hasBye := "BYE" ∈ allMethods
  if hasBye ∧ has200 = true then "Finished"
  else if has200 = true then "Answered"
  else if hasCancel then "Cancelled"
  else if allMethods = {"INVITE"} ∨ allMethods = {"INVITE", ""} then "Trying"
  else "Unknown"

/-- `r.get("create_date") or r.get("micro_ts", 0)` — the per-record timestamp. -/
def recTs (r : Rec) : Int :=
  pyOrI r.create_date (r.micro_ts.getD 0)

/-- The guard `if r.get("create_date") or r.get("micro_ts")`. -/
def recHasTs (r : Rec) : Bool :=
  truthyI r.create_date || truthyI r.micro_ts

/-- Timestamps collected for the duration computation of a partition. -/
def groupTimestamps (recs : List Rec) : List Int :=
  (recs.filter recHasTs).map recTs

/-- Duration of a partition: `max - min` over the collected timestamps when at
least two exist, else 0 (lines 65–71 of `homer.py`). -/
def groupDuration (recs : List Rec) : Int :=
  let timestamps := groupTimestamps recs
  if 2 ≤ timestamps.length then pyMax timestamps - pyMin timestamps else 0

/-- One summary row of the search results list. -/
structure CallRow where
  callid : String
  from_user : String
  to_user : String
  src_ip : String
  dst_ip : String
  methods : List String
  status : String
  create_date : Int
  duration_str : String
  id : Int
deriving DecidableEq, Repr, Inhabited

/-- The deduplicated, sorted list of truthy methods (`sorted({... if r.get("method")})`). -/
def sortedMethods (recs : List Rec) : List String :=
  insSort strLeB
    ((recs.filterMap (fun r =>
        let m := r.method.getD ""
        if m = "" then none else some m)).dedup)

/-- The record with the lowest `id` (stable sort by `r.get("id", 0)`, first element). -/
def lowestIdRec (recs : List Rec) : Rec :=
  (insSort (keyLe (fun r => r.id.getD 0)) recs).headD default

/-- The summary row one partition of records produces (loop body of `_group_calls`). -/
def groupRow (cid : String) (recs : List Rec) : CallRow :=
  let invite := (recs.find? (fun r => r.method == some "INVITE")).getD (recs.headD default)
  let first := lowestIdRec recs
  { callid := cid
    from_user := pyOrS invite.from_user (invite.caller.getD "")
    to_user := pyOrS invite.to_user (invite.callee.getD "")
    src_ip := pyOrS invite.srcIp (invite.source_ip.getD "")
    dst_ip := pyOrS invite.dstIp (invite.destination_ip.getD "")
    methods := sortedMethods recs
    status := groupStatus recs
    create_date := pyOrI first.create_date 0
    duration_str := msToHhmmss (groupDuration recs)
    id := first.id.getD 0 }

/-- The distinct grouping keys in first-occurrence order (Python `defaultdict`
insertion order). -/
def firstKeys : List Rec → List String
  | [] => []
  | r :: t => recCid r :: (firstKeys t).filter (fun c => c ≠ recCid r)

/-- The partition of a batch belonging to one grouping key. -/
def partitionOf (records : List Rec) (cid : String) : List Rec :=
  records.filter (fun r => recCid r == cid)

/-- Embedding of `_group_calls`: one summary row per distinct call id, sorted
newest-first (stably) by the `create_date` field. -/
def _group_calls (records : List Rec) : List CallRow :=
  insSort (keyGe CallRow.create_date)
    ((firstKeys records).map (fun cid => groupRow cid (partitionOf records cid)))

/-! ### Transaction response model -/

/-- One value of the `hosts` topology dict: either a nested dict (whose
`position` key may be missing), an int-convertible value, or something
`int()` rejects. -/
inductive HostInfoVal where
  | dict (position : Option Int)
  | intVal (n : Int)
  | badVal
deriving DecidableEq, Repr

/-- `info["position"] if isinstance(info, dict) else int(info)` — raises on a
dict without `"position"` and on an unconvertible value. -/
def hostPos : HostInfoVal → Except String Int
  | HostInfoVal.dict (some p) => Except.ok p
  | HostInfoVal.dict none => Except.error "KeyError: position"
  | HostInfoVal.intVal n => Except.ok n
  | HostInfoVal.badVal => Except.error "ValueError: invalid literal for int()"

/-- The `data` object of a transaction response (`alias` is a Lean keyword,
so that key is called `aliasMap` here). -/
structure TxData where
  messages : Option (List Rec) := none
  hosts : Option (List (String × HostInfoVal)) := none
  aliasMap : Option (List (String × String)) := none
deriving DecidableEq, Repr, Inhabited

/-- A transaction response (`transaction.get("data") or {}` treats an absent
or empty `data` alike). -/
structure Transaction where
  data : Option TxData := none
deriving DecidableEq, Repr, Inhabited

/-- The raw message list of a transaction (`data.get("messages") or []`). -/
def txMessages (t : Transaction) : List Rec :=
  ((t.data.getD default).messages).getD []

/-- The raw hosts topology of a transaction (`data.get("hosts") or {}`). -/
def txHosts (t : Transaction) : List (String × HostInfoVal) :=
  ((t.data.getD default).hosts).getD []

/-- The alias map of a transaction (`data.get("alias") or {}`). -/
def txAlias (t : Transaction) : List (String × String) :=
  ((t.data.getD default).aliasMap).getD []

/-! ### `_call_summary_from_transaction` — the single-call summary path -/

/-- The SIP-type messages of a list (`payloadType` defaults to 1). -/
def sipOnly (messages : List Rec) : List Rec :=
  messages.filter (fun m => m.payloadType.getD 1 == 1)

/-- Single-call-path 200 detection: only the raw text is consulted
(`m.get("raw", "").startswith("SIP/2.0 200")`). -/
def hasRaw200 (msgs : List Rec) : Bool :=
  msgs.any (fun m => pyStartsWith (m.raw.getD "") "SIP/2.0 200")

/-- The status ladder of `_call_summary_from_transaction`
(lines 389–398 of `homer.py`); note the subset test for `Trying`. -/
def txStatus (sipMsgs : List Rec) : String :=
  let allMethods := methodsSet sipMsgs
  let has200 := hasRaw200 sipMsgs
  let hasCancel := "CANCEL" ∈ allMethods
  let hasBye := "BYE" ∈ allMethods
  if hasBye ∧ has200 = true then "Finished"
  else if has200 = true then "Answered"
  else if hasCancel then "Cancelled"
  else if allMethods ⊆ {"INVITE", ""} then "Trying"
  else "Unknown"

/-- Ascending stable sort by `m.get("micro_ts", 0)`. -/
def sortByMicroTs (msgs : List Rec) : List Rec :=
  insSort (keyLe (fun m => m.micro_ts.getD 0)) msgs

/-- Embedding of `_call_summary_from_transaction`. -/
def _call_summary_from_transaction (callid : String) (t : Transaction) :
    Option CallRow :=
  let messages := txMessages t
  let sipMsgs := sipOnly messages
  if sipMsgs = [] then none
  else
    let sorted := sortByMicroTs sipMsgs
    let invite := (sorted.find? (fun m => m.method == some "INVITE")).getD (sorted.headD default)
    let timestamps := (sorted.filter (fun m => truthyI m.micro_ts)).map (fun m => m.micro_ts.getD 0)
    let duration_ms := if 2 ≤ timestamps.length then pyMax timestamps - pyMin timestamps else 0
    some
      { callid := callid
        from_user := invite.from_user.getD ""
        to_user := invite.to_user.getD ""
        src_ip := invite.srcIp.getD ""
        dst_ip := invite.dstIp.getD ""
        methods := sortedMethods sorted
        status := txStatus sorted
        create_date := (sorted.headD default).micro_ts.getD 0
        duration_str := msToHhmmss duration_ms
        id := (sorted.headD default).id.getD 0 }

/-! ### `_extract_header` and `_find_response_ts` -/

/-- Embedding of `_extract_header`: value of the first matching header line. -/
def _extract_header (raw : String) (header : String) : String :=
  let lowerHeader := pyLower header ++ ":"
  match (pySplitLines raw).find? (fun line => pyStartsWith (pyLower line) lowerHeader) with
  | some line => pyStrip (pyDropChars line (header.length + 1))
  | none => ""

/-- Embedding of `_find_response_ts`: ms timestamp of the first message whose
raw text starts with `SIP/2.0 {code}`. -/
def _find_response_ts (rawMessages : List Rec) (code : String) : Int :=
  match rawMessages.find? (fun msg =>
      let raw := pyOrS msg.raw ""
      pyStartsWith raw ("SIP/2.0 " ++ code) || pyStartsWith raw ("SIP/2.0 " ++ code ++ " ")) with
  | some msg => pyOrI msg.micro_ts 0
  | none => 0

/-! ### Output row shapes of `_build_call_detail` -/

/-- One simplified SIP message (the `messages` list entries). -/
structure MsgOut where
  id : Option Int
  offset_ms : Int
  src_addr : String
  dst_addr : String
  method : String
  cseq : String
  user_agent : String
  raw : String
  create_date : Int
  ts_ms : Int
deriving DecidableEq, Repr, Inhabited

/-- One HEP-LOG entry (the `logs` list entries). -/
structure LogOut where
  ts_ms : Int
  src_addr : String
  raw : String
  create_date : Int
deriving DecidableEq, Repr, Inhabited

/-- One flow-diagram row. Log rows carry `none` in the SIP-only fields (their
Python dicts lack those keys); the `ts_display` wall-clock rendering field
(a strftime presentation string wrapped in try/except) is not modelled. -/
structure FlowRow where
  src_col : Int
  dst_col : Int
  label : String
  type : String
  method : String
  offset_ms : Int
  raw_preview : String
  method_display : Option String := none
  msg_idx : Option Nat := none
  src_port : Option String := none
  dst_port : Option String := none
  first_sip_line : Option String := none
  msg_id_str : Option String := none
deriving DecidableEq, Repr, Inhabited

/-- The session summary derived by `_build_session`. -/
structure Session where
  callid : String
  from_user : String
  to_user : String
  ruri : String
  src_addr : String
  dst_addr : String
  status : String
  duration_str : String
  duration_sec : Int
  ringing_ms : Int
  setup_ms : Int
  disconnect_ms : Int
  method_counts : List (String × Nat)
deriving DecidableEq, Repr, Inhabited

/-! ### `_build_session` -/

/-- `[m.get("ts_ms", 0) for m in messages if m.get("ts_ms")]`. -/
def sessTsList (messages : List MsgOut) : List Int :=
  (messages.map MsgOut.ts_ms).filter (fun t => t != 0)

/-- `min(ts_list) if ts_list else 0`. -/
def sessFirstTs (messages : List MsgOut) : Int :=
  let l := sessTsList messages
  if l = [] then 0 else pyMin l

/-- `max(ts_list) if ts_list else 0`. -/
def sessLastTs (messages : List MsgOut) : Int :=
  let l := sessTsList messages
  if l = [] then 0 else pyMax l

/-- Timestamp of the first INVITE message, defaulting to the first timestamp. -/
def sessInviteTs (messages : List MsgOut) : Int :=
  match messages.find? (fun m => m.method == "INVITE") with
  | some m => m.ts_ms
  | none => sessFirstTs messages

/-- Timestamp of the first BYE message, defaulting to the last timestamp. -/
def sessByeTs (messages : List MsgOut) : Int :=
  match messages.find? (fun m => m.method == "BYE") with
  | some m => m.ts_ms
  | none => sessLastTs messages

/-- The method set `{m.get("method", "") for m in messages}`. -/
def sessMethodsSet (messages : List MsgOut) : Finset String :=
  (messages.map MsgOut.method).toFinset

/-- The status ladder of `_build_session` (lines 325–332 of `homer.py`):
its fallback label is `In Progress`, not `Trying`/`Unknown`. -/
def sessStatus (messages : List MsgOut) (rawMessages : List Rec) : String :=
  let hasBye := "BYE" ∈ sessMethodsSet messages
  let okTs := _find_response_ts rawMessages "200"
  if hasBye ∧ okTs ≠ 0 then "Finished"
  else if okTs ≠ 0 then "Answered"
  else if "CANCEL" ∈ sessMethodsSet messages then "Cancelled"
  else "In Progress"

/-- `ringing_ms = ringing_ts - invite_ts` guarded by truthiness of both. -/
def sessRingingMs (messages : List MsgOut) (rawMessages : List Rec) : Int :=
  let ringingTs := _find_response_ts rawMessages "180"
  let inviteTs := sessInviteTs messages
  if ringingTs ≠ 0 ∧ inviteTs ≠ 0 then ringingTs - inviteTs else 0

/-- `setup_ms = ok_ts - invite_ts` guarded by truthiness of both. -/
def sessSetupMs (messages : List MsgOut) (rawMessages : List Rec) : Int :=
  let okTs := _find_response_ts rawMessages "200"
  let inviteTs := sessInviteTs messages
  if okTs ≠ 0 ∧ inviteTs ≠ 0 then okTs - inviteTs else 0

/-- `disconnect_ms = last_ts - bye_ts` guarded by truthiness of both. -/
def sessDisconnectMs (messages : List MsgOut) : Int :=
  let byeTs := sessByeTs messages
  let lastTs := sessLastTs messages
  if byeTs ≠ 0 ∧ lastTs ≠ 0 then lastTs - byeTs else 0

/-- `duration_ms = bye_ts - ok_ts` when both are truthy, else `last - first`. -/
def sessDurationMs (messages : List MsgOut) (rawMessages : List Rec) : Int :=
  let okTs := _find_response_ts rawMessages "200"
  let byeTs := sessByeTs messages
  if okTs ≠ 0 ∧ byeTs ≠ 0 then byeTs - okTs
  else sessLastTs messages - sessFirstTs messages

/-- Increment the count of one key in an insertion-ordered histogram. -/
def bumpCount : List (String × Nat) → String → List (String × Nat)
  | [], k => [(k, 1)]
  | (a, n) :: t, k => if a = k then (a, n + 1) :: t else (a, n) :: bumpCount t k

/-- The method histogram over non-empty methods. -/
def methodCounts (messages : List MsgOut) : List (String × Nat) :=
  messages.foldl (fun acc m => if m.method = "" then acc else bumpCount acc m.method) []

/-- Embedding of `_build_session` (the `data` parameter is unused in the
source as well). -/
def _build_session (messages : List MsgOut) (rawMessages : List Rec)
    (_data : TxData) : Session :=
  let inviteMsg := messages.find? (fun m => m.method == "INVITE")
  let rawInvite (f : Rec → String) : String :=
    match rawMessages.find? (fun r => r.method == some "INVITE") with
    | some r => f r
    | none => ""
  let fields : String × String × String × String × String × String :=
    match inviteMsg with
    | some im =>
        let ruriUser : String := rawInvite (fun r => r.ruri_user.getD "")
        let ruriDomain : String := rawInvite (fun r => r.ruri_domain.getD "")
        (rawInvite (fun r => r.callid.getD ""),
         rawInvite (fun r => r.from_user.getD ""),
         rawInvite (fun r => r.to_user.getD ""),
         (if ruriDomain == "" then ruriUser else ruriUser ++ "@" ++ ruriDomain),
         im.src_addr, im.dst_addr)
    | none => ("", "", "", "", "", "")
  let callid0 := fields.1
  let callid :=
    if callid0 = "" ∧ rawMessages ≠ [] then (rawMessages.headD default).callid.getD ""
    else callid0
  let durationMs := sessDurationMs messages rawMessages
  { callid := callid
    from_user := fields.2.1
    to_user := fields.2.2.1
    ruri := fields.2.2.2.1
    src_addr := fields.2.2.2.2.1
    dst_addr := fields.2.2.2.2.2
    status := sessStatus messages rawMessages
    duration_str := msToHhmmss durationMs
    duration_sec := Int.fdiv durationMs 1000
    ringing_ms := sessRingingMs messages rawMessages
    setup_ms := sessSetupMs messages rawMessages
    disconnect_ms := sessDisconnectMs messages
    method_counts := methodCounts messages }

/-! ### `_build_call_detail` -/

/-- `alias_map.get(host, host)`. -/
def aliasGet (aliasMap : List (String × String)) (host : String) : String :=
  (List.lookup host aliasMap).getD host

/-- The hosts-map comprehension of `_build_call_detail` (lines 123–126):
raises (models to `Except.error`) on an entry `int()` cannot convert or on a
nested dict without a `position` key. -/
def hostsMapOf : List (String × HostInfoVal) → Except String (List (String × Int))
  | [] => Except.ok []
  | (h, v) :: t => do
      let p ← hostPos v
      let rest ← hostsMapOf t
      Except.ok ((h, p) :: rest)

/-- Length of the column list: `max((v + 1 for v in hosts_map.values()), default=0)`
(Python list repetition clamps a negative count to an empty list). -/
def colLen (hostsMap : List (String × Int)) : Nat :=
  (pyMax (hostsMap.map (fun p => p.2 + 1))).toNat

/-- Build the ordered column list and fill in aliases at in-range positions. -/
def mkCols (aliasMap : List (String × String)) (hostsMap : List (String × Int)) :
    List String :=
  hostsMap.foldl
    (fun cols p =>
      if 0 ≤ p.2 ∧ p.2 < (cols.length : Int) then
        cols.set p.2.toNat (aliasGet aliasMap p.1)
      else cols)
    (List.replicate (colLen hostsMap) "")

/-- Topology lookup with the unmapped default: `hosts_map.get(addr, -1)`. -/
def colOf (hostsMap : List (String × Int)) (addr : String) : Int :=
  (List.lookup addr hostsMap).getD (-1)

/-- `msg.get("micro_ts", 0)` — the per-message millisecond timestamp. -/
def msgTsMs (m : Rec) : Int := m.micro_ts.getD 0

/-- `msg.get("method") or ""` — the defensive method default. -/
def msgMethod (m : Rec) : String := pyOrS m.method ""

/-- `msg.get("raw") or ""`. -/
def msgRaw (m : Rec) : String := pyOrS m.raw ""

/-- Rendering of an optional port into the `ip:port` endpoint string. -/
def portStr : Option Int → String
  | none => ""
  | some n => toString n

/-- `f"{msg.get('srcIp', '')}:{msg.get('srcPort', '')}"`. -/
def srcAddrOf (m : Rec) : String := m.srcIp.getD "" ++ ":" ++ portStr m.srcPort

/-- `f"{msg.get('dstIp', '')}:{msg.get('dstPort', '')}"`. -/
def dstAddrOf (m : Rec) : String := m.dstIp.getD "" ++ ":" ++ portStr m.dstPort

/-- First nonempty stripped line of the raw SIP text, clipped to 120 chars. -/
def firstSipLine (raw : String) : String :=
  if raw = "" then ""
  else
    match (pySplitLines raw).find? (fun l => pyStrip l ≠ "") with
    | some l => pySlice (pyStrip l) 120
    | none => ""

/-- Method label with an SDP marker when the payload advertises SDP content. -/
def methodDisplay (method raw : String) : String :=
  if method ≠ "" ∧ raw ≠ "" ∧ pyContainsSub (pyLower raw) "content-type: application/sdp" = true
  then method ++ " (SDP)"
  else method

/-- `addr.rsplit(":", 1)[-1] if ":" in addr else ""`. -/
def portOfAddr (addr : String) : String :=
  if addr.data.contains ':' then (pySplit addr ':').getLastD "" else ""

/-- `f"[{msg.get('id')}]" if msg.get("id") is not None else ""`. -/
def msgIdStr (m : Rec) : String :=
  match m.id with
  | some n => "[" ++ toString n ++ "]"
  | none => ""

/-- The per-message loop of `_build_call_detail` (lines 145–244), with
accumulators for the three output lists; `msg_idx` is the number of SIP
messages appended so far. -/
def detailLoop (hostsMap : List (String × Int)) (firstTs : Int) :
    List Rec → List MsgOut → List LogOut → List FlowRow →
    List MsgOut × List LogOut × List FlowRow
  | [], accM, accL, accF => (accM.reverse, accL.reverse, accF.reverse)
  | msg :: rest, accM, accL, accF =>
      let ptype := msg.payloadType.getD 1
      let tsMs := msgTsMs msg
      let offset := tsMs - firstTs
      let srcAddr := srcAddrOf msg
      let dstAddr := dstAddrOf msg
      let srcCol := colOf hostsMap srcAddr
      let dstCol := colOf hostsMap dstAddr
      let method := msgMethod msg
      let rawText := msgRaw msg
      let createDate := pyOrI msg.create_date tsMs
      if ptype = 1 then
        let cseq := pyOrS msg.cseq ""
        let mo : MsgOut :=
          { id := msg.id, offset_ms := offset, src_addr := srcAddr, dst_addr := dstAddr,
            method := method, cseq := cseq,
            user_agent := _extract_header rawText "User-Agent",
            raw := rawText, create_date := createDate, ts_ms := tsMs }
        let fr : FlowRow :=
          { src_col := srcCol, dst_col := dstCol,
            label := if method = "" then cseq else method,
            type := "sip", method := method, offset_ms := offset,
            raw_preview := if rawText = "" then "" else pySlice rawText 120,
            method_display := some (methodDisplay method rawText),
            msg_idx := some accM.length,
            src_port := some (portOfAddr srcAddr),
            dst_port := some (portOfAddr dstAddr),
            first_sip_line := some (firstSipLine rawText),
            msg_id_str := some (msgIdStr msg) }
        detailLoop hostsMap firstTs rest (mo :: accM) accL (fr :: accF)
      else if ptype = 100 then
        let lo : LogOut :=
          { ts_ms := tsMs, src_addr := srcAddr, raw := rawText, create_date := createDate }
        let fr : FlowRow :=
          { src_col := dstCol, dst_col := dstCol,
            label := if rawText = "" then "LOG" else pySlice rawText 80,
            type := "log", method := "", offset_ms := offset,
            raw_preview := pySlice rawText 120 }
        detailLoop hostsMap firstTs rest accM (lo :: accL) (fr :: accF)
      else
        detailLoop hostsMap firstTs rest accM accL accF

/-- The full template-ready result of `_build_call_detail`. -/
structure Detail where
  messages : List MsgOut
  flow_cols : List String
  flow_rows : List FlowRow
  session : Session
  logs : List LogOut
  total_messages : Nat
  first_ts_ms : Int
deriving DecidableEq, Repr, Inhabited

/-- `raw_messages[0].get("micro_ts", 0) if raw_messages else 0`. -/
def firstTsOf : List Rec → Int
  | [] => 0
  | h :: _ => h.micro_ts.getD 0

/-- The infallible tail of `_build_call_detail`, after the hosts map has been
extracted: sort, compute offsets and columns, derive the session. -/
def buildDetailRest (transaction : Transaction) (hostsMap : List (String × Int)) :
    Detail :=
  let aliasMap := txAlias transaction
  let rawMessages := sortByMicroTs (txMessages transaction)
  let firstTs := firstTsOf rawMessages
  let flowCols := mkCols aliasMap hostsMap
  let out := detailLoop hostsMap firstTs rawMessages [] [] []
  let messages := out.1
  let logs := out.2.1
  let flowRows := out.2.2
  let session := _build_session messages rawMessages (transaction.data.getD default)
  { messages := messages, flow_cols := flowCols, flow_rows := flowRows,
    session := session, logs := logs,
    total_messages := messages.length, first_ts_ms := firstTs }

/-- Embedding of `_build_call_detail`.  The hosts-map extraction is the one
step that can raise; everything after it is total. -/
def _build_call_detail (transaction : Transaction) : Except String Detail :=
  match hostsMapOf (txHosts transaction) with
  | Except.error e => Except.error e
  | Except.ok hostsMap => Except.ok (buildDetailRest transaction hostsMap)

/-! ### Infrastructure lemmas about the grouper -/

theorem firstKeys_mem {records : List Rec} {c : String}
    (h : c ∈ firstKeys records) : ∃ r ∈ records, recCid r = c := by
  induction records with
  | nil => cases h
  | cons r t ih =>
      simp only [firstKeys, List.mem_cons] at h
      rcases h with rfl | h
      · exact ⟨r, List.mem_cons_self r t, rfl⟩
      · rcases ih (List.mem_of_mem_filter h) with ⟨x, hx, hcx⟩
        exact ⟨x, List.mem_cons_of_mem r hx, hcx⟩

theorem firstKeys_single {records : List Rec} {cid : String}
    (hcid : ∀ r ∈ records, recCid r = cid) (hne : records ≠ []) :
    firstKeys records = [cid] := by
  induction records with
  | nil => exact absurd rfl hne
  | cons r t ih =>
      have hr : recCid r = cid := hcid r (List.mem_cons_self r t)
      have hall : ∀ c ∈ firstKeys t, c = cid := by
        intro c hc
        rcases firstKeys_mem hc with ⟨x, hx, hcx⟩
        rw [← hcx]
        exact hcid x (List.mem_cons_of_mem r hx)
      have hfil : (firstKeys t).filter (fun c => c ≠ recCid r) = [] := by
        rw [List.filter_eq_nil_iff]
        intro c hc
        have := hall c hc
        simp [this, hr]
      show recCid r :: (firstKeys t).filter (fun c => c ≠ recCid r) = [cid]
      rw [hfil, hr]

theorem partitionOf_self {records : List Rec} {cid : String}
    (hcid : ∀ r ∈ records, recCid r = cid) :
    partitionOf records cid = records := by
  rw [partitionOf, List.filter_eq_self]
  intro r hr
  simp [hcid r hr]

/-- A batch whose records all share one call id groups to exactly one row. -/
theorem group_calls_single {records : List Rec} {cid : String}
    (hcid : ∀ r ∈ records, recCid r = cid) (hne : records ≠ []) :
    _group_calls records = [groupRow cid records] := by
  rw [_group_calls, firstKeys_single hcid hne]
  simp [insSort, ordInsert, partitionOf_self hcid]

/-- Every produced row is the row of its own call id's partition. -/
theorem mem_group_calls {records : List Rec} {row : CallRow}
    (h : row ∈ _group_calls records) :
    row.callid ∈ firstKeys records ∧
      row = groupRow row.callid (partitionOf records row.callid) := by
  rw [_group_calls, mem_insSort, List.mem_map] at h
  rcases h with ⟨c, hc, hrow⟩
  have hcallid : row.callid = c := by rw [← hrow]; rfl
  constructor
  · rw [hcallid]; exact hc
  · rw [hcallid, ← hrow]

theorem partitionOf_ne_nil {records : List Rec} {c : String}
    (h : c ∈ firstKeys records) : partitionOf records c ≠ [] := by
  rcases firstKeys_mem h with ⟨r, hr, hcr⟩
  have : r ∈ partitionOf records c := by
    rw [partitionOf, List.mem_filter]
    exact ⟨hr, by simp [hcr]⟩
  intro hnil
  rw [hnil] at this
  cases this

/-! ### Permutation invariance of the evidence extraction -/

theorem any_perm {l1 l2 : List α} (h : l1.Perm l2) (p : α → Bool) :
    l1.any p = l2.any p := by
  cases h2 : l2.any p with
  | false =>
      rw [List.any_eq_false] at h2
      rw [List.any_eq_false]
      intro x hx
      exact h2 x (h.mem_iff.mp hx)
  | true =>
      rw [List.any_eq_true] at h2
      rw [List.any_eq_true]
      rcases h2 with ⟨x, hx, hp⟩
      exact ⟨x, h.mem_iff.mpr hx, hp⟩

theorem methodsSet_perm {l1 l2 : List Rec} (h : l1.Perm l2) :
    methodsSet l1 = methodsSet l2 := by
  apply Finset.ext
  intro x
  simp only [methodsSet, List.mem_toFinset, List.mem_map]
  constructor
  · rintro ⟨r, hr, e⟩
    exact ⟨r, h.mem_iff.mp hr, e⟩
  · rintro ⟨r, hr, e⟩
    exact ⟨r, h.mem_iff.mpr hr, e⟩

theorem hasRaw200_perm {l1 l2 : List Rec} (h : l1.Perm l2) :
    hasRaw200 l1 = hasRaw200 l2 :=
  any_perm h _

theorem txStatus_perm {l1 l2 : List Rec} (h : l1.Perm l2) :
    txStatus l1 = txStatus l2 := by
  rw [txStatus, txStatus, methodsSet_perm h, hasRaw200_perm h]

theorem methodsSet_ne_empty {recs : List Rec} (hne : recs ≠ []) :
    methodsSet recs ≠ ∅ := by
  cases recs with
  | nil => exact absurd rfl hne
  | cons r t =>
      intro h
      have : r.method.getD "" ∈ methodsSet (r :: t) := by
        simp [methodsSet]
      rw [h] at this
      cases this

/-! ### Subsets of a two-element finset -/

theorem finset_subset_pair {α : Type} [DecidableEq α] {a b : α} {S : Finset α}
    (h : S ⊆ {a, b}) : S = ∅ ∨ S = {a} ∨ S = {b} ∨ S = {a, b} := by
  by_cases ha : a ∈ S <;> by_cases hb : b ∈ S
  · right; right; right
    apply Finset.Subset.antisymm h
    intro x hx
    rcases Finset.mem_insert.mp hx with rfl | hx
    · exact ha
    · rw [Finset.mem_singleton] at hx
      rw [hx]; exact hb
  · right; left
    apply Finset.Subset.antisymm
    · intro x hx
      rcases Finset.mem_insert.mp (h hx) with rfl | hx2
      · exact Finset.mem_singleton_self x
      · rw [Finset.mem_singleton] at hx2
        rw [hx2] at hx
        exact absurd hx hb
    · intro x hx
      rw [Finset.mem_singleton] at hx
      rw [hx]; exact ha
  · right; right; left
    apply Finset.Subset.antisymm
    · intro x hx
      rcases Finset.mem_insert.mp (h hx) with rfl | hx2
      · exact absurd hx ha
      · exact hx2
    · intro x hx
      rw [Finset.mem_singleton] at hx
      rw [hx]; exact hb
  · left
    rw [Finset.eq_empty_iff_forall_not_mem]
    intro x hx
    rcases Finset.mem_insert.mp (h hx) with rfl | hx2
    · exact absurd hx ha
    · rw [Finset.mem_singleton] at hx2
      rw [hx2] at hx
      exact absurd hx hb

/-- On a nonempty method set other than the bare empty-string set, the batch
equality test and the single-call subset test for `Trying` agree. -/
theorem trying_tests_agree {S : Finset String} (hne : S ≠ ∅) (hq : S ≠ {""}) :
    (S = {"INVITE"} ∨ S = {"INVITE", ""}) ↔ S ⊆ {"INVITE", ""} := by
  constructor
  · rintro (rfl | rfl)
    · intro x hx
      rw [Finset.mem_singleton] at hx
      rw [hx]
      exact Finset.mem_insert_self "INVITE" {""}
    · exact Finset.Subset.refl _
  · intro h
    rcases finset_subset_pair h with h0 | h1 | h2 | h3
    · exact absurd h0 hne
    · exact Or.inl h1
    · exact absurd h2 hq
    · exact Or.inr h3

/-! ### Head of a key-sorted list is a key-minimum -/

theorem insSort_headD_min (k : α → Int) (l : List α) (d : α) (hne : l ≠ []) :
    (insSort (keyLe k) l).headD d ∈ l ∧
      ∀ x ∈ l, k ((insSort (keyLe k) l).headD d) ≤ k x := by
  have hperm := insSort_perm (keyLe k) l
  have hpw := pairwise_insSort (keyLe k) (keyLe_total k) (keyLe_trans k) l
  cases hs : insSort (keyLe k) l with
  | nil =>
      rw [hs] at hperm
      exact absurd (List.perm_nil.mp hperm.symm) hne
  | cons a t =>
      rw [hs] at hperm hpw
      constructor
      · exact hperm.mem_iff.mp (List.mem_cons_self a t)
      · intro x hx
        have hx2 : x ∈ a :: t := hperm.mem_iff.mpr hx
        rcases List.mem_cons.mp hx2 with rfl | hxt
        · exact le_refl _
        · have := (List.pairwise_cons.mp hpw).1 x hxt
          simpa [keyLe, decide_eq_true_eq] using this

/-! ### The hosts-map extraction succeeds exactly on well-shaped topologies -/

theorem hostsMapOf_ok {l : List (String × HostInfoVal)}
    (h : ∀ p ∈ l, ∃ n, hostPos p.2 = Except.ok n) :
    ∃ hm, hostsMapOf l = Except.ok hm := by
  induction l with
  | nil => exact ⟨[], rfl⟩
  | cons p t ih =>
      rcases h p (List.mem_cons_self p t) with ⟨n, hn⟩
      rcases ih (fun q hq => h q (List.mem_cons_of_mem p hq)) with ⟨hm, hhm⟩
      refine ⟨(p.1, n) :: hm, ?_⟩
      cases p with
      | mk a v =>
          simp only [hostsMapOf, hn, hhm]
          rfl

/-! ### The two status ladders -/

/-- When the 200-evidence is visible equally to both detectors and the method
set is not the bare empty-string set, the batch and single-call status
ladders coincide on a nonempty record set. -/
theorem status_ladders_agree {recs : List Rec} (hne : recs ≠ [])
    (h200 : has200batch recs = hasRaw200 recs)
    (hq : methodsSet recs ≠ {""}) :
    groupStatus recs = txStatus recs := by
  have hS := trying_tests_agree (methodsSet_ne_empty hne) hq
  simp only [groupStatus, txStatus]
  rw [h200]
  by_cases h2 : hasRaw200 recs = true
  · by_cases hb : "BYE" ∈ methodsSet recs
    · rw [if_pos (And.intro hb h2), if_pos (And.intro hb h2)]
    · have hnA : ¬("BYE" ∈ methodsSet recs ∧ hasRaw200 recs = true) := fun h => hb h.1
      rw [if_neg hnA, if_neg hnA, if_pos h2, if_pos h2]
  · have hnA : ¬("BYE" ∈ methodsSet recs ∧ hasRaw200 recs = true) := fun h => h2 h.2
    rw [if_neg hnA, if_neg hnA, if_neg h2, if_neg h2]
    by_cases hc : "CANCEL" ∈ methodsSet recs
    · rw [if_pos hc, if_pos hc]
    · rw [if_neg hc, if_neg hc]
      exact if_congr hS rfl rfl

theorem sortByMicroTs_perm (l : List Rec) : (sortByMicroTs l).Perm l :=
  insSort_perm _ l

/-- The status the single-call path reports, computed over any transaction
whose message list is `recs` and whose records are all SIP-typed. -/
theorem call_summary_status {cid : String} {recs : List Rec} {t : Transaction}
    (htm : txMessages t = recs) (hne : recs ≠ [])
    (hsip : ∀ r ∈ recs, r.payloadType.getD 1 = 1) :
    (_call_summary_from_transaction cid t).map CallRow.status =
      some (txStatus recs) := by
  have hfil : sipOnly recs = recs := by
    rw [sipOnly, List.filter_eq_self]
    intro r hr
    simpa using hsip r hr
  unfold _call_summary_from_transaction
  rw [htm]
  dsimp only
  rw [hfil, if_neg hne]
  simp only [Option.map_some']
  show some (txStatus (sortByMicroTs recs)) = some (txStatus recs)
  rw [txStatus_perm (sortByMicroTs_perm recs)]

/-! ### Concrete inputs used by counterexamples and witnesses -/

/-- A BYE record (SIP-typed) of call `c`. -/
def cxRecBye : Rec :=
  { callid := some "c", method := some "BYE", micro_ts := some 1, payloadType := some 1 }

/-- A 200 response of call `c` visible only in the raw text (no
`response_code`, no numeric method). -/
def cxRecRaw200 : Rec :=
  { callid := some "c", raw := some "SIP/2.0 200 OK", micro_ts := some 2, payloadType := some 1 }

/-- The transaction carrying exactly `[cxRecBye, cxRecRaw200]`. -/
def cxTxRaw200 : Transaction :=
  { data := some { messages := some [cxRecBye, cxRecRaw200] } }

/-- Claim C1, counterexample: a record set with a BYE and a 200-class final
response that is visible only as raw text beginning `SIP/2.0 200`.  The claim
demands status `Finished` on both paths; the batch grouping path reports
`Unknown` because `_group_calls` never consults the raw text. -/
theorem claim_C1_counterexample :
    ("BYE" ∈ methodsSet [cxRecBye, cxRecRaw200] ∧
      pyStartsWith (cxRecRaw200.raw.getD "") "SIP/2.0 200" = true) ∧
    (_group_calls [cxRecBye, cxRecRaw200]).map CallRow.status = ["Unknown"] ∧
    ("Unknown" : String) ≠ "Finished" := by
  decide

/-- Claim C1 (amended): with a BYE present, each path infers `Finished`
regardless of any CANCEL — but only from the 200-evidence its own detector
sees: the batch path needs `response_code == "200"` or a method beginning
`200`; the single-call path needs raw text beginning `SIP/2.0 200`. -/
theorem claim_C1 (cid : String) (recs : List Rec) (hne : recs ≠ [])
    (hcid : ∀ r ∈ recs, recCid r = cid)
    (hbye : "BYE" ∈ methodsSet recs) :
    (has200batch recs = true →
      (_group_calls recs).map CallRow.status = ["Finished"]) ∧
    (∀ t : Transaction, txMessages t = recs →
      (∀ r ∈ recs, r.payloadType.getD 1 = 1) →
      hasRaw200 recs = true →
      (_call_summary_from_transaction cid t).map CallRow.status = some "Finished") := by
  constructor
  · intro h200
    rw [group_calls_single hcid hne]
    simp only [List.map_cons, List.map_nil]
    show [groupStatus recs] = ["Finished"]
    congr 1
    simp only [groupStatus]
    rw [if_pos (And.intro hbye h200)]
  · intro t htm hsip h200
    rw [call_summary_status htm hne hsip]
    congr 1
    simp only [txStatus]
    rw [if_pos (And.intro hbye h200)]

/-- A CANCEL retransmission record of call `c`. -/
def wRecCancel : Rec :=
  { callid := some "c", method := some "CANCEL", micro_ts := some 3, payloadType := some 1 }

/-- A record carrying the 200 evidence in all three encodings. -/
def wRec200Full : Rec :=
  { callid := some "c", response_code := some 200, raw := some "SIP/2.0 200 OK",
    micro_ts := some 2, payloadType := some 1 }

/-- The witness record set for C1: BYE + full 200 + a late CANCEL. -/
def wRecsC1 : List Rec := [cxRecBye, wRec200Full, wRecCancel]

/-- The transaction carrying `wRecsC1`. -/
def wTxC1 : Transaction := { data := some { messages := some wRecsC1 } }

/-- Claim C1 witness: on a concrete BYE + 200 + CANCEL set both paths
report `Finished`. -/
theorem claim_C1_witness :
    (_group_calls wRecsC1).map CallRow.status = ["Finished"] ∧
    (_call_summary_from_transaction "c" wTxC1).map CallRow.status = some "Finished" :=
  ⟨(claim_C1 "c" wRecsC1 (by decide) (by decide) (by decide)).1 (by decide),
   (claim_C1 "c" wRecsC1 (by decide) (by decide) (by decide)).2 wTxC1 (by decide)
     (by decide) (by decide)⟩

/-- Claim C2, counterexample: on the record set with a BYE and a raw-text-only
200, the single-call summary path reports `Finished` while the batch grouper
reports `Unknown` — the two classification paths do not agree on every input. -/
theorem claim_C2_counterexample :
    (_group_calls [cxRecBye, cxRecRaw200]).map CallRow.status = ["Unknown"] ∧
    (_call_summary_from_transaction "c" cxTxRaw200).map CallRow.status = some "Finished" ∧
    ("Unknown" : String) ≠ "Finished" := by
  decide

/-- Claim C2 (amended): the two paths agree on a per-call record set of
SIP-typed records when (a) the 200-evidence is visible to both detectors
equally and (b) the distinct-method set is not exactly the singleton of the
empty string (on which the batch path answers `Unknown` but the single-call
path `Trying`). -/
theorem claim_C2 (cid : String) (recs : List Rec) (t : Transaction)
    (hne : recs ≠ []) (hcid : ∀ r ∈ recs, recCid r = cid)
    (hsip : ∀ r ∈ recs, r.payloadType.getD 1 = 1)
    (htm : txMessages t = recs)
    (h200 : has200batch recs = hasRaw200 recs)
    (hq : methodsSet recs ≠ {""}) :
    (_call_summary_from_transaction cid t).map CallRow.status =
      some (groupStatus recs) ∧
    (_group_calls recs).map CallRow.status = [groupStatus recs] := by
  constructor
  · rw [call_summary_status htm hne hsip,
      ← status_ladders_agree hne h200 hq]
  · rw [group_calls_single hcid hne]
    simp only [List.map_cons, List.map_nil]
    rfl

/-- The witness record set for C2: a lone INVITE. -/
def wRecsC2 : List Rec :=
  [{ callid := some "c", method := some "INVITE", micro_ts := some 1, payloadType := some 1 }]

/-- The transaction carrying `wRecsC2`. -/
def wTxC2 : Transaction := { data := some { messages := some wRecsC2 } }

/-- Claim C2 witness: on a concrete lone-INVITE set both paths agree
(both report the batch status, which is `Trying`). -/
theorem claim_C2_witness :
    (_call_summary_from_transaction "c" wTxC2).map CallRow.status =
      some (groupStatus wRecsC2) ∧
    (_group_calls wRecsC2).map CallRow.status = [groupStatus wRecsC2] :=
  claim_C2 "c" wRecsC2 wTxC2 (by decide) (by decide) (by decide) (by decide)
    (by decide) (by decide)

/-- A record of call `c` with no method at all. -/
def cxRecEmpty : Rec := { callid := some "c" }

/-- Claim C4, counterexample: the partition `[cxRecEmpty]` has method set
exactly `{""}` (a subset of `{INVITE, ""}`) and no 200/CANCEL/BYE evidence,
yet `_group_calls` classifies it `Unknown`, not `Trying`: the code tests
equality with `{"INVITE"}` or `{"INVITE", ""}`, not the subset relation. -/
theorem claim_C4_counterexample :
    methodsSet [cxRecEmpty] = {""} ∧
    has200batch [cxRecEmpty] = false ∧
    (_group_calls [cxRecEmpty]).map CallRow.status = ["Unknown"] ∧
    ("Unknown" : String) ≠ "Trying" := by
  decide

/-- Claim C4 (amended): a partition with no batch-visible 200 whose method
set is exactly `{"INVITE"}` or exactly `{"INVITE", ""}` is classified
`Trying`; the method set `{""}` alone falls through to `Unknown`. -/
theorem claim_C4 (cid : String) (recs : List Rec) (hne : recs ≠ [])
    (hcid : ∀ r ∈ recs, recCid r = cid)
    (h200 : has200batch recs = false)
    (hset : methodsSet recs = {"INVITE"} ∨ methodsSet recs = {"INVITE", ""}) :
    (_group_calls recs).map CallRow.status = ["Trying"] := by
  rw [group_calls_single hcid hne]
  simp only [List.map_cons, List.map_nil]
  show [groupStatus recs] = ["Trying"]
  congr 1
  simp only [groupStatus]
  have hbye : ¬("BYE" ∈ methodsSet recs) := by
    rcases hset with h | h <;> rw [h] <;> decide
  have hcancel : ¬("CANCEL" ∈ methodsSet recs) := by
    rcases hset with h | h <;> rw [h] <;> decide
  have h2 : ¬(has200batch recs = true) := by
    rw [h200]; exact Bool.false_ne_true
  rw [if_neg (fun h => h2 h.2), if_neg h2, if_neg hcancel, if_pos hset]

/-- The witness record set for C4: an INVITE plus a method-less record. -/
def wRecsC4 : List Rec :=
  [{ callid := some "c", method := some "INVITE", micro_ts := some 1 }, cxRecEmpty]

/-- Claim C4 witness: a concrete INVITE-plus-blank partition is `Trying`. -/
theorem claim_C4_witness :
    (_group_calls wRecsC4).map CallRow.status = ["Trying"] :=
  claim_C4 "c" wRecsC4 (by decide) (by decide) (by decide) (by decide)

/-- Lowest-id record of call `x` carries the later create_date 100... its id
is 2; the id-1 record carries create_date 500. -/
def cxRecIdA : Rec := { callid := some "x", id := some 2, create_date := some 100 }

/-- The record of call `x` with the lowest id (1) but the larger create_date. -/
def cxRecIdB : Rec := { callid := some "x", id := some 1, create_date := some 500 }

/-- Claim C7, counterexample: the partition's minimum timestamp is 100, but
the produced row's `create_date` field is 500 — it is the `create_date` of
the lowest-id record, not the minimum timestamp of the partition. -/
theorem claim_C7_counterexample :
    pyMin (groupTimestamps [cxRecIdA, cxRecIdB]) = 100 ∧
    (_group_calls [cxRecIdA, cxRecIdB]).map CallRow.create_date = [500] ∧
    (500 : Int) ≠ 100 := by
  decide

/-- Claim C7 (amended): each summary row's `create_date` is the `create_date`
(0 when falsy) of the partition record with the lowest `id` (stable tie-break
by original order), and the output is sorted newest-first by that field. -/
theorem claim_C7 (records : List Rec) :
    ((_group_calls records).map CallRow.create_date).Pairwise (fun a b => b ≤ a) ∧
    ∀ row ∈ _group_calls records,
      row.create_date = pyOrI (lowestIdRec (partitionOf records row.callid)).create_date 0 ∧
      lowestIdRec (partitionOf records row.callid) ∈ partitionOf records row.callid ∧
      ∀ r ∈ partitionOf records row.callid,
        (lowestIdRec (partitionOf records row.callid)).id.getD 0 ≤ r.id.getD 0 := by
  constructor
  · unfold _group_calls
    rw [List.pairwise_map]
    have hpw := pairwise_insSort (keyGe CallRow.create_date) (keyGe_total _) (keyGe_trans _)
      ((firstKeys records).map (fun cid => groupRow cid (partitionOf records cid)))
    exact hpw.imp (fun h => by simpa [keyGe, decide_eq_true_eq] using h)
  · intro row hrow
    rcases mem_group_calls hrow with ⟨hk, heq⟩
    have hne := partitionOf_ne_nil hk
    have hmin := insSort_headD_min (fun r => r.id.getD 0)
      (partitionOf records row.callid) default hne
    refine ⟨?_, hmin.1, hmin.2⟩
    rw [heq]
    rfl

/-- Claim C7 witness: on the concrete two-record partition of call `x`, its
row carries the lowest-id record's create_date, that record belongs to the
partition, and its id is below the other record's id. -/
theorem claim_C7_witness :
    (groupRow "x" [cxRecIdA, cxRecIdB]).create_date =
      pyOrI (lowestIdRec (partitionOf [cxRecIdA, cxRecIdB]
        (groupRow "x" [cxRecIdA, cxRecIdB]).callid)).create_date 0 ∧
    lowestIdRec (partitionOf [cxRecIdA, cxRecIdB]
        (groupRow "x" [cxRecIdA, cxRecIdB]).callid) ∈
      partitionOf [cxRecIdA, cxRecIdB] (groupRow "x" [cxRecIdA, cxRecIdB]).callid ∧
    (lowestIdRec (partitionOf [cxRecIdA, cxRecIdB]
        (groupRow "x" [cxRecIdA, cxRecIdB]).callid)).id.getD 0 ≤ cxRecIdA.id.getD 0 :=
  have h := (claim_C7 [cxRecIdA, cxRecIdB]).2
    (groupRow "x" [cxRecIdA, cxRecIdB]) (by decide)
  ⟨h.1, h.2.1, h.2.2 cxRecIdA (by decide)⟩

theorem groupTimestamps_length_le (l : List Rec) :
    (groupTimestamps l).length ≤ l.length := by
  rw [groupTimestamps, List.length_map]
  exact List.length_filter_le _ _

theorem groupDuration_nonneg (l : List Rec) : 0 ≤ groupDuration l := by
  rw [groupDuration]
  by_cases h : 2 ≤ (groupTimestamps l).length
  · rw [if_pos h]
    exact sub_nonneg.mpr (pyMin_le_pyMax _)
  · rw [if_neg h]

/-- Claim C8: each row's duration is `max - min` over the partition's
timestamped records when at least two exist, else 0; it is never negative,
and a single-record partition has duration 0. -/
theorem claim_C8 (records : List Rec) :
    ∀ row ∈ _group_calls records,
      row.duration_str =
        msToHhmmss (groupDuration (partitionOf records row.callid)) ∧
      groupDuration (partitionOf records row.callid) =
        (if 2 ≤ (groupTimestamps (partitionOf records row.callid)).length
         then pyMax (groupTimestamps (partitionOf records row.callid)) -
              pyMin (groupTimestamps (partitionOf records row.callid))
         else 0) ∧
      0 ≤ groupDuration (partitionOf records row.callid) ∧
      ((partitionOf records row.callid).length = 1 →
        groupDuration (partitionOf records row.callid) = 0) := by
  intro row hrow
  rcases mem_group_calls hrow with ⟨_, heq⟩
  refine ⟨?_, rfl, groupDuration_nonneg _, ?_⟩
  · rw [heq]
    rfl
  · intro hlen
    rw [groupDuration]
    have hle := groupTimestamps_length_le (partitionOf records row.callid)
    rw [hlen] at hle
    rw [if_neg (by omega)]

/-- A lone timestamped record of call `y`. -/
def wRecSingle : Rec := { callid := some "y", create_date := some 7 }

/-- Claim C8 witness: on the concrete single-record partition of call `y`,
the row's duration renders from `groupDuration`, the duration is
non-negative, and — the partition having exactly one record — it is 0. -/
theorem claim_C8_witness :
    (groupRow "y" [wRecSingle]).duration_str =
      msToHhmmss (groupDuration (partitionOf [wRecSingle]
        (groupRow "y" [wRecSingle]).callid)) ∧
    0 ≤ groupDuration (partitionOf [wRecSingle] (groupRow "y" [wRecSingle]).callid) ∧
    groupDuration (partitionOf [wRecSingle] (groupRow "y" [wRecSingle]).callid) = 0 :=
  have h := claim_C8 [wRecSingle] (groupRow "y" [wRecSingle]) (by decide)
  ⟨h.1, h.2.2.1, h.2.2.2 (by decide)⟩

/-! ### The C5 scenario transaction -/

/-- Scenario INVITE at t=0. -/
def scInvite : Rec := { method := some "INVITE", micro_ts := some 0, payloadType := some 1 }

/-- Scenario 180 Ringing at t=500. -/
def scRinging : Rec :=
  { raw := some "SIP/2.0 180 Ringing", micro_ts := some 500, payloadType := some 1 }

/-- Scenario 200 OK at t=1200. -/
def scOk : Rec := { raw := some "SIP/2.0 200 OK", micro_ts := some 1200, payloadType := some 1 }

/-- Scenario BYE at t=9000. -/
def scBye : Rec := { method := some "BYE", micro_ts := some 9000, payloadType := some 1 }

/-- The scenario transaction of claim C5. -/
def txScenC5 : Transaction :=
  { data := some { messages := some [scInvite, scRinging, scOk, scBye] } }

/-- Claim C5, counterexample: on the INVITE t=0 / 180 t=500 / 200 t=1200 /
BYE t=9000 scenario the derived session has `ringing_ms = 0` and
`setup_ms = 0`, not 500 and 1200: the INVITE timestamp 0 is falsy, and the
spec's own zero-guard (`0 if either is 0`) suppresses both latencies. -/
theorem claim_C5_counterexample :
    (_build_call_detail txScenC5).map (fun d => d.session.ringing_ms) = Except.ok 0 ∧
    (Except.ok (0 : Int) : Except String Int) ≠ Except.ok 500 ∧
    (_build_call_detail txScenC5).map (fun d => d.session.setup_ms) = Except.ok 0 ∧
    (Except.ok (0 : Int) : Except String Int) ≠ Except.ok 1200 := by
  decide

/-- Claim C5 (amended): on that scenario the session is `Finished` with
`duration_ms = bye - answer = 7800` (so `duration_sec = 7`, rendered `7s`),
`disconnect_ms = 0`, and — because the INVITE timestamp 0 is treated as
absent — `ringing_ms = 0` and `setup_ms = 0`. -/
theorem claim_C5 :
    (_build_call_detail txScenC5).map (fun d => d.session.status) =
      Except.ok "Finished" ∧
    (_build_call_detail txScenC5).map
        (fun d => sessDurationMs d.messages (sortByMicroTs (txMessages txScenC5))) =
      Except.ok 7800 ∧
    (_build_call_detail txScenC5).map (fun d => d.session.duration_sec) = Except.ok 7 ∧
    (_build_call_detail txScenC5).map (fun d => d.session.duration_str) =
      Except.ok "7s" ∧
    (_build_call_detail txScenC5).map (fun d => d.session.disconnect_ms) =
      Except.ok 0 ∧
    (_build_call_detail txScenC5).map (fun d => d.session.ringing_ms) = Except.ok 0 ∧
    (_build_call_detail txScenC5).map (fun d => d.session.setup_ms) = Except.ok 0 := by
  decide

/-! ### Claim C10 — the session status range -/

theorem sessStatus_cases (messages : List MsgOut) (rawMessages : List Rec) :
    sessStatus messages rawMessages = "Finished" ∨
    sessStatus messages rawMessages = "Answered" ∨
    sessStatus messages rawMessages = "Cancelled" ∨
    sessStatus messages rawMessages = "In Progress" := by
  rw [sessStatus]
  split_ifs
  · exact Or.inl rfl
  · exact Or.inr (Or.inl rfl)
  · exact Or.inr (Or.inr (Or.inl rfl))
  · exact Or.inr (Or.inr (Or.inr rfl))

/-- Claim C10: the session deriver's status is always one of `Finished`,
`Answered`, `Cancelled`, `In Progress` — never `Trying` or `Unknown` — and
every input lacking a 200, a BYE and a CANCEL (the empty input included)
falls through to `In Progress`. -/
theorem claim_C10 (messages : List MsgOut) (rawMessages : List Rec) (d : TxData) :
    ((_build_session messages rawMessages d).status = "Finished" ∨
     (_build_session messages rawMessages d).status = "Answered" ∨
     (_build_session messages rawMessages d).status = "Cancelled" ∨
     (_build_session messages rawMessages d).status = "In Progress") ∧
    (_build_session messages rawMessages d).status ≠ "Trying" ∧
    (_build_session messages rawMessages d).status ≠ "Unknown" ∧
    (_find_response_ts rawMessages "200" = 0 →
      "BYE" ∉ sessMethodsSet messages →
      "CANCEL" ∉ sessMethodsSet messages →
      (_build_session messages rawMessages d).status = "In Progress") := by
  have hstat : (_build_session messages rawMessages d).status =
      sessStatus messages rawMessages := rfl
  have hcases := sessStatus_cases messages rawMessages
  refine ⟨by rw [hstat]; exact hcases, ?_, ?_, ?_⟩
  · rw [hstat]
    rcases hcases with h | h | h | h <;> rw [h] <;> decide
  · rw [hstat]
    rcases hcases with h | h | h | h <;> rw [h] <;> decide
  · intro hok hbye hcancel
    rw [hstat, sessStatus]
    have h1 : ¬("BYE" ∈ sessMethodsSet messages ∧
        _find_response_ts rawMessages "200" ≠ 0) := fun h => hbye h.1
    have h2 : ¬(_find_response_ts rawMessages "200" ≠ 0) := fun h => h hok
    rw [if_neg h1, if_neg h2, if_neg hcancel]

/-- Claim C10 witness: on the empty message and record lists the status is
`In Progress` (one of the four labels, and neither `Trying` nor `Unknown`). -/
theorem claim_C10_witness :
    ((_build_session [] [] {}).status = "Finished" ∨
     (_build_session [] [] {}).status = "Answered" ∨
     (_build_session [] [] {}).status = "Cancelled" ∨
     (_build_session [] [] {}).status = "In Progress") ∧
    (_build_session [] [] {}).status ≠ "Trying" ∧
    (_build_session [] [] {}).status ≠ "Unknown" ∧
    (_build_session [] [] {}).status = "In Progress" :=
  have h := claim_C10 [] [] {}
  ⟨h.1, h.2.1, h.2.2.1, h.2.2.2 (by decide) (by decide) (by decide)⟩

/-! ### Claim C3 — the empty transaction -/

theorem buildDetailRest_empty (t : Transaction) (hm : List (String × Int))
    (hmsgs : txMessages t = []) :
    buildDetailRest t hm =
      { messages := [], flow_cols := mkCols (txAlias t) hm, flow_rows := [],
        session := _build_session [] [] (t.data.getD default), logs := [],
        total_messages := 0, first_ts_ms := 0 } := by
  simp only [buildDetailRest, hmsgs]
  rfl

theorem mkCols_length (aliasMap : List (String × String))
    (hm : List (String × Int)) :
    (mkCols aliasMap hm).length = colLen hm := by
  rw [mkCols]
  have hfold : ∀ (l : List (String × Int)) (cols : List String),
      (l.foldl
        (fun cs p =>
          if 0 ≤ p.2 ∧ p.2 < (cs.length : Int) then
            cs.set p.2.toNat (aliasGet aliasMap p.1)
          else cs)
        cols).length = cols.length := by
    intro l
    induction l with
    | nil => intro cols; rfl
    | cons p t ih =>
        intro cols
        rw [List.foldl_cons, ih]
        by_cases h : 0 ≤ p.2 ∧ p.2 < (cols.length : Int)
        · rw [if_pos h, List.length_set]
        · rw [if_neg h]
  rw [hfold]
  exact List.length_replicate _ _

/-- Claim C3 (amended): an empty (or absent) message list with a well-shaped
hosts map yields, without raising, an empty timeline, no messages,
`message_count = 0`, and a session whose status is `In Progress` (not
`Unknown` as the spec wrote).  The column list is driven by the topology
alone: it is exactly `mkCols` of the extracted hosts map, its length is
`max(0, 1 + the maximum topology position)` (`colLen`), and in particular it
is empty whenever the hosts map is empty or absent — though a nonempty
topology whose positions are all negative also yields no columns. -/
theorem claim_C3 (t : Transaction) (hmsgs : txMessages t = [])
    (hhosts : ∀ p ∈ txHosts t, ∃ n, hostPos p.2 = Except.ok n) :
    ∃ d, _build_call_detail t = Except.ok d ∧ d.flow_rows = [] ∧ d.messages = [] ∧
      d.total_messages = 0 ∧ d.session.status = "In Progress" ∧
      ∃ hm, hostsMapOf (txHosts t) = Except.ok hm ∧
        d.flow_cols = mkCols (txAlias t) hm ∧
        d.flow_cols.length = colLen hm ∧
        (txHosts t = [] → d.flow_cols = []) := by
  rcases hostsMapOf_ok hhosts with ⟨hm, hhm⟩
  refine ⟨buildDetailRest t hm, ?_, ?_, ?_, ?_, ?_, hm, hhm, rfl, ?_, ?_⟩
  · unfold _build_call_detail
    rw [hhm]
  · rw [buildDetailRest_empty t hm hmsgs]
  · rw [buildDetailRest_empty t hm hmsgs]
  · rw [buildDetailRest_empty t hm hmsgs]
  · rw [buildDetailRest_empty t hm hmsgs]
    show sessStatus [] [] = "In Progress"
    decide
  · exact mkCols_length (txAlias t) hm
  · intro h0
    rw [h0] at hhm
    have hhm0 : hm = [] := by
      have h2 : (Except.ok ([] : List (String × Int)) :
          Except String (List (String × Int))) = Except.ok hm := hhm
      exact ((Except.ok.injEq _ _).mp h2).symm
    rw [buildDetailRest_empty t hm hmsgs, hhm0]
    rfl

/-- The witness transaction for C3: present but empty message list, no hosts. -/
def wTxC3 : Transaction := { data := some { messages := some [] } }

/-- A second C3 witness input: empty messages with one well-shaped hosts
entry at position -1 (a nonempty topology that still yields no columns). -/
def wTxC3Neg : Transaction :=
  { data := some { messages := some [],
                   hosts := some [("n:1", HostInfoVal.dict (some (-1)))] } }

/-- Claim C3 witness: the concrete empty transaction builds successfully with
empty timeline, empty columns, zero messages and status `In Progress`; and
the variant carrying a position -1 topology entry also yields an empty
column list despite its nonempty hosts map. -/
theorem claim_C3_witness :
    ((_build_call_detail wTxC3).map Detail.flow_rows = Except.ok [] ∧
     (_build_call_detail wTxC3).map Detail.total_messages = Except.ok 0 ∧
     (_build_call_detail wTxC3).map (fun d => d.session.status) =
       Except.ok "In Progress" ∧
     (_build_call_detail wTxC3).map Detail.flow_cols = Except.ok []) ∧
    (_build_call_detail wTxC3Neg).map Detail.flow_cols = Except.ok [] := by
  constructor
  · rcases claim_C3 wTxC3 (by decide)
        (by intro p hp; exact absurd hp (List.not_mem_nil p))
      with ⟨d, hd, hfr, _, htot, hstat, hm, hhm2, hceq, hclen, hcols⟩
    rw [hd]
    exact ⟨congrArg Except.ok hfr, congrArg Except.ok htot,
      congrArg Except.ok hstat, congrArg Except.ok (hcols rfl)⟩
  · have hh : ∀ p ∈ txHosts wTxC3Neg, ∃ n, hostPos p.2 = Except.ok n := by
      intro p hp
      have he : txHosts wTxC3Neg = [("n:1", HostInfoVal.dict (some (-1)))] := rfl
      rw [he, List.mem_singleton] at hp
      rw [hp]
      exact ⟨-1, rfl⟩
    rcases claim_C3 wTxC3Neg (by decide) hh
      with ⟨d, hd, _, _, _, _, hm, hhm2, hceq, _, _⟩
    have h2 : (Except.ok [("n:1", (-1 : Int))] :
        Except String (List (String × Int))) = Except.ok hm := hhm2
    have hm0 : hm = [("n:1", (-1 : Int))] := ((Except.ok.injEq _ _).mp h2).symm
    rw [hm0] at hceq
    have hc : mkCols (txAlias wTxC3Neg) [("n:1", (-1 : Int))] = [] := by decide
    rw [hd]
    exact congrArg Except.ok (hceq.trans hc)

/-! ### Claim C9 — data-shape anomalies -/

/-- A transaction whose hosts topology contains a dict without `position`. -/
def cxTxBadHosts : Transaction :=
  { data := some { hosts := some [("h:1", HostInfoVal.dict none)] } }

/-- Claim C9, counterexample: `_build_call_detail` does raise on a hosts
entry that is a dict of unexpected shape (no `position` key): the hosts-map
comprehension`info["position"]` throws a KeyError, modelled as an error. -/
theorem claim_C9_counterexample :
    _build_call_detail cxTxBadHosts = Except.error "KeyError: position" := by
  decide

/-- Claim C9 (amended): whenever every hosts entry is well-shaped (a dict
with a `position` key, or an int-convertible value), `_build_call_detail`
returns normally for every record shape; within the loop, a missing
timestamp defaults to 0, a missing method to the empty string, and an
endpoint absent from the topology maps to column -1. -/
theorem claim_C9 (t : Transaction)
    (hhosts : ∀ p ∈ txHosts t, ∃ n, hostPos p.2 = Except.ok n) :
    (∃ d, _build_call_detail t = Except.ok d) ∧
    (∀ m : Rec, m.micro_ts = none → msgTsMs m = 0) ∧
    (∀ m : Rec, m.method = none → msgMethod m = "") ∧
    (∀ hm : List (String × Int), ∀ addr : String,
      List.lookup addr hm = none → colOf hm addr = -1) := by
  refine ⟨?_, ?_, ?_, ?_⟩
  · rcases hostsMapOf_ok hhosts with ⟨hm, hhm⟩
    refine ⟨buildDetailRest t hm, ?_⟩
    unfold _build_call_detail
    rw [hhm]
  · intro m h
    rw [msgTsMs, h]
    rfl
  · intro m h
    rw [msgMethod, h]
    rfl
  · intro hm addr h
    rw [colOf, h]
    rfl

/-- The witness transaction for C9: one well-shaped int-valued hosts entry
and one record with no timestamp, no method and unmapped endpoints. -/
def wTxC9 : Transaction :=
  { data := some { messages := some [{ callid := some "c" }],
                   hosts := some [("a:1", HostInfoVal.intVal 0)] } }

/-- Claim C9 witness: the concrete anomalous transaction builds successfully,
and the three defensive defaults evaluate as stated on concrete inputs. -/
theorem claim_C9_witness :
    (_build_call_detail wTxC9).isOk = true ∧
    msgTsMs { callid := some "c" } = 0 ∧
    msgMethod { callid := some "c" } = "" ∧
    colOf [("a:1", 0)] "b:2" = -1 :=
  have hh : ∀ p ∈ txHosts wTxC9, ∃ n, hostPos p.2 = Except.ok n := by
    intro p hp
    have he : txHosts wTxC9 = [("a:1", HostInfoVal.intVal 0)] := rfl
    rw [he, List.mem_singleton] at hp
    rw [hp]
    exact ⟨0, rfl⟩
  have h := claim_C9 wTxC9 hh
  ⟨by rcases h.1 with ⟨d, hd⟩; rw [hd]; rfl,
   h.2.1 { callid := some "c" } rfl,
   h.2.2.1 { callid := some "c" } rfl,
   h.2.2.2 [("a:1", 0)] "b:2" (by decide)⟩

/-! ### Claim C6 — timeline order, offsets, stability -/

/-- The offset the detail loop records for a message when it produces a flow
row (SIP and log payloads), `none` for ignored payload types. -/
def offFn (firstTs : Int) (m : Rec) : Option Int :=
  if m.payloadType.getD 1 = 1 then some (msgTsMs m - firstTs)
  else if m.payloadType.getD 1 = 100 then some (msgTsMs m - firstTs)
  else none

theorem detailLoop_offsets (hm : List (String × Int)) (firstTs : Int) :
    ∀ (msgs : List Rec) (accM : List MsgOut) (accL : List LogOut) (accF : List FlowRow),
      ((detailLoop hm firstTs msgs accM accL accF).2.2).map FlowRow.offset_ms =
        (accF.reverse).map FlowRow.offset_ms ++ msgs.filterMap (offFn firstTs) := by
  intro msgs
  induction msgs with
  | nil =>
      intro accM accL accF
      simp [detailLoop]
  | cons msg rest ih =>
      intro accM accL accF
      by_cases h1 : msg.payloadType.getD 1 = 1
      · simp only [detailLoop, if_pos h1]
        rw [ih]
        simp [offFn, h1, List.filterMap_cons, List.reverse_cons, List.map_append,
          List.append_assoc]
      · by_cases h2 : msg.payloadType.getD 1 = 100
        · simp only [detailLoop, if_neg h1, if_pos h2]
          rw [ih]
          simp [offFn, h1, h2, List.filterMap_cons, List.reverse_cons, List.map_append,
            List.append_assoc]
        · simp only [detailLoop, if_neg h1, if_neg h2]
          rw [ih]
          simp [offFn, h1, h2, List.filterMap_cons]

theorem flow_offsets_eq (t : Transaction) (hm : List (String × Int)) :
    ((buildDetailRest t hm).flow_rows).map FlowRow.offset_ms =
      (sortByMicroTs (txMessages t)).filterMap
        (offFn (firstTsOf (sortByMicroTs (txMessages t)))) := by
  have h := detailLoop_offsets hm (firstTsOf (sortByMicroTs (txMessages t)))
    (sortByMicroTs (txMessages t)) [] [] []
  simpa [buildDetailRest] using h

theorem sortByMicroTs_pairwise (l : List Rec) :
    (sortByMicroTs l).Pairwise (fun a b => msgTsMs a ≤ msgTsMs b) := by
  have h := pairwise_insSort (keyLe (fun m => m.micro_ts.getD 0))
    (keyLe_total _) (keyLe_trans _) l
  exact h.imp (fun hx => by simpa [keyLe, msgTsMs, decide_eq_true_eq] using hx)

theorem offFn_mem {firstTs : Int} {m : Rec} {x : Int} (h : x ∈ offFn firstTs m) :
    x = msgTsMs m - firstTs := by
  rw [offFn] at h
  split_ifs at h
  · simp at h
    exact h.symm
  · simp at h
    exact h.symm
  · simp at h

theorem firstTs_le_mem (l : List Rec) :
    ∀ m ∈ sortByMicroTs l, firstTsOf (sortByMicroTs l) ≤ msgTsMs m := by
  have hpw := sortByMicroTs_pairwise l
  cases hs : sortByMicroTs l with
  | nil =>
      intro m hm
      cases hm
  | cons a t =>
      rw [hs] at hpw
      intro m hm
      rcases List.mem_cons.mp hm with rfl | hmt
      · exact le_of_eq rfl
      · exact (List.pairwise_cons.mp hpw).1 m hmt

/-- Claim C6: timeline rows are emitted in ascending timestamp order from the
stable sort of the record set — `offset_ms` values are exactly the
timestamp-minus-first values of the sorted SIP/log records, non-negative and
non-decreasing, and records with equal timestamps keep their original
relative order within the sorted list the rows are generated from. -/
theorem claim_C6 (t : Transaction) (d : Detail)
    (h : _build_call_detail t = Except.ok d) :
    (d.flow_rows.map FlowRow.offset_ms).Pairwise (fun a b => a ≤ b) ∧
    (∀ fr ∈ d.flow_rows, 0 ≤ fr.offset_ms) ∧
    d.flow_rows.map FlowRow.offset_ms =
      (sortByMicroTs (txMessages t)).filterMap
        (offFn (firstTsOf (sortByMicroTs (txMessages t)))) ∧
    (∀ a b : Rec, [a, b].Sublist (txMessages t) → msgTsMs a = msgTsMs b →
      [a, b].Sublist (sortByMicroTs (txMessages t))) := by
  have hd : ∃ hm, d = buildDetailRest t hm := by
    unfold _build_call_detail at h
    cases hmo : hostsMapOf (txHosts t) with
    | error e => rw [hmo] at h; cases h
    | ok hm =>
        rw [hmo] at h
        exact ⟨hm, ((Except.ok.injEq _ _).mp h).symm⟩
  rcases hd with ⟨hm, rfl⟩
  have heq := flow_offsets_eq t hm
  have hsorted := sortByMicroTs_pairwise (txMessages t)
  refine ⟨?_, ?_, heq, ?_⟩
  · rw [heq]
    rw [List.pairwise_filterMap]
    refine hsorted.imp ?_
    intro a b hab
    intro x hx y hy
    rw [offFn_mem hx, offFn_mem hy]
    exact sub_le_sub_right hab _
  · intro fr hfr
    have hmem : fr.offset_ms ∈
        ((buildDetailRest t hm).flow_rows).map FlowRow.offset_ms :=
      List.mem_map_of_mem FlowRow.offset_ms hfr
    rw [heq] at hmem
    rcases List.mem_filterMap.mp hmem with ⟨m, hmmem, hsome⟩
    have hx := offFn_mem (by rw [hsome]; rfl :
      fr.offset_ms ∈ offFn (firstTsOf (sortByMicroTs (txMessages t))) m)
    rw [hx]
    have := firstTs_le_mem (txMessages t) m hmmem
    omega
  · intro a b hab hts
    have hle : keyLe (fun m => m.micro_ts.getD 0) a b = true := by
      simp only [keyLe, decide_eq_true_eq]
      exact le_of_eq hts
    exact insSort_stable _ hab hle

/-- Two SIP records of equal timestamp, distinguished by their cseq. -/
def wRecEqA : Rec := { micro_ts := some 5, payloadType := some 1, cseq := some "1 INVITE" }

/-- The second equal-timestamp SIP record. -/
def wRecEqB : Rec := { micro_ts := some 5, payloadType := some 1, cseq := some "2 OK" }

/-- The witness transaction for C6: two equal-timestamp records. -/
def wTxC6 : Transaction := { data := some { messages := some [wRecEqA, wRecEqB] } }

/-- The detail the C6 witness transaction builds (hosts absent, so the
hosts map is empty). -/
def wDetailC6 : Detail := buildDetailRest wTxC6 []

/-- Claim C6 witness: on the concrete equal-timestamp pair the offsets of the
built detail match the sorted-filterMap form and the pair keeps its original
order through the stable sort. -/
theorem claim_C6_witness :
    wDetailC6.flow_rows.map FlowRow.offset_ms =
      (sortByMicroTs (txMessages wTxC6)).filterMap
        (offFn (firstTsOf (sortByMicroTs (txMessages wTxC6)))) ∧
    [wRecEqA, wRecEqB].Sublist (sortByMicroTs (txMessages wTxC6)) :=
  have h := claim_C6 wTxC6 wDetailC6 rfl
  ⟨h.2.2.1, h.2.2.2 wRecEqA wRecEqB (by decide) (by decide)⟩

/-- A transaction with an empty message list but a populated topology. -/
def cxTxEmptyMsgs : Transaction :=
  { data := some { messages := some [],
                   hosts := some [("a:1", HostInfoVal.dict (some 0))] } }

/-- Claim C3, counterexample: on an empty `data.messages` the session status
is `In Progress`, not `Unknown` (the initial `Unknown` is dead code), and
with a populated topology the column list is not empty either. -/
theorem claim_C3_counterexample :
    (_build_call_detail cxTxEmptyMsgs).map (fun d => d.session.status) =
      Except.ok "In Progress" ∧
    (Except.ok "In Progress" : Except String String) ≠ Except.ok "Unknown" ∧
    (_build_call_detail cxTxEmptyMsgs).map Detail.flow_cols = Except.ok ["a:1"] ∧
    (_build_call_detail cxTxEmptyMsgs).map Detail.total_messages = Except.ok 0 := by
  decide
